import Mathlib

/-!
# Verification of the vector-DB benchmark core (`benchmark.py`)

A shallow embedding of the measurement core of `benchmark.py`:
the exact top-k baseline oracle (`exact_topk_indices`, lines 108-115), the
per-query recall computation (lines 187-217), the per-(backend, k) statistics
aggregation loop (lines 152-243), the `_one_query` latency measurement
(lines 168-173), the error propagation of a failing `db.search` call
(lines 177-183), backend dispatch `get_db` (lines 36-54) and the main
per-backend loop with its teardown policy (lines 129-141, 245-247).

Modelling conventions, used throughout:
* Python floats are modelled as exact rationals `ℚ`; the claims under study
  are about selection, ordering, aggregation structure and control flow, not
  about rounding.
* `np.argsort(-sims)` and the `np.argpartition`-then-sort composite are
  modelled as sorting the index list by the total order "score descending,
  index ascending" (the deterministic tie-break the spec recommends); NumPy's
  output agrees with this up to the ordering of tied scores, which the spec
  leaves unspecified.
* `np.std` (population standard deviation) is the square root of the
  population variance; the embedding records the variance (`npVar`), since
  square roots leave `ℚ`.  `Real.sqrt` is strictly monotone on nonnegatives,
  so equality and inequality of standard deviations coincide with equality
  and inequality of variances.
* `str.lower()` is modelled by `strLower`, a character-wise lowercase map
  (extensionally Lean's `String.toLower`, written out so that it evaluates
  by kernel reduction).
* The `ThreadPoolExecutor`/`as_completed` loop is modelled by lists in
  completion order: each repetition contributes its samples in the order the
  driver loop consumed them.
-/

namespace Benchmark

/-! ## Baseline oracle — `exact_topk_indices` (benchmark.py lines 108-115) -/

/-- Dot product of two vectors, `mat[i] @ qv` for one row.  Python:
`sims = mat @ qv` (line 110). -/
def dot (v w : List ℚ) : ℚ := (List.zipWith (· * ·) v w).sum

/-- `sims = mat @ qv` (line 110): the similarity score of the query against
every reference row. -/
def sims (qv : List ℚ) (mat : List (List ℚ)) : List ℚ := mat.map fun row => dot row qv

/-- Score of index `i` in the similarity list (out-of-range reads default
to `0`; all uses stay in range). -/
def scoreAt (s : List ℚ) (i : ℕ) : ℚ := s.getD i 0

/-- The total order used to model `np.argsort(-sims)`: score strictly
descending, ties broken by ascending index. -/
def argRel (s : List ℚ) (i j : ℕ) : Prop :=
  scoreAt s j < scoreAt s i ∨ (scoreAt s i = scoreAt s j ∧ i ≤ j)

instance argRelDecidable (s : List ℚ) : DecidableRel (argRel s) := fun i j => by
  unfold argRel; infer_instance

instance argRelTotal (s : List ℚ) : IsTotal ℕ (argRel s) where
  total i j := by
    unfold argRel
    rcases lt_trichotomy (scoreAt s i) (scoreAt s j) with h | h | h
    · exact Or.inr (Or.inl h)
    · rcases Nat.le_total i j with hij | hij
      · exact Or.inl (Or.inr ⟨h, hij⟩)
      · exact Or.inr (Or.inr ⟨h.symm, hij⟩)
    · exact Or.inl (Or.inl h)

instance argRelTrans (s : List ℚ) : IsTrans ℕ (argRel s) where
  trans i j k hij hjk := by
    unfold argRel at *
    rcases hij with h₁ | ⟨e₁, l₁⟩
    · rcases hjk with h₂ | ⟨e₂, _⟩
      · exact Or.inl (h₂.trans h₁)
      · exact Or.inl (e₂ ▸ h₁)
    · rcases hjk with h₂ | ⟨e₂, l₂⟩
      · exact Or.inl (e₁ ▸ h₂)
      · exact Or.inr ⟨e₁.trans e₂, l₁.trans l₂⟩

/-- `np.argsort(-sims)` (line 112), modelled as sorting all indices by the
total order `argRel` (score descending, index ascending). -/
def argsortDesc (s : List ℚ) : List ℕ :=
  List.insertionSort (argRel s) (List.range s.length)

/-- `exact_topk_indices` (lines 108-115).  If `k >= len(sims)` the full
descending argsort is returned (line 112); otherwise the top `k` indices
(`np.argpartition` then a sort of the selected block, lines 113-115),
modelled as the first `k` entries of the full descending argsort. -/
def exact_topk_indices (qv : List ℚ) (mat : List (List ℚ)) (k : ℕ) : List ℕ :=
  if (sims qv mat).length ≤ k then argsortDesc (sims qv mat)
  else (argsortDesc (sims qv mat)).take k

/-! ## Recall computation (benchmark.py lines 187-217) -/

/-- The recall appended for one query (line 217):
`inter / float(k) if k > 0 else 0.0`, where `inter` is the size of the
intersection of the exact-baseline index set with the identifier set
extracted from the backend result (lines 204-216). -/
def recall_value (true_idx res_ids : List ℕ) (k : ℕ) : ℚ :=
  if 0 < k then ((true_idx.toFinset ∩ res_ids.toFinset).card : ℚ) / k else 0

/-! ## Per-(backend, k) aggregation loop (benchmark.py lines 152-243) -/

/-- One executed query's outcome, as consumed by the `as_completed` loop
(lines 179-217): its measured search latency, its `hits_at_k` score and the
recall value appended for it. -/
structure Sample where
  latency : ℚ
  hit : ℚ
  recallScore : ℚ
deriving DecidableEq

/-- One repetition's raw outcome: the samples in completion order and the
wall-clock span `wall = time.time() - s_all` measured around the whole
dispatch-and-collect block (lines 175 and 218). -/
structure RepOutcome where
  samples : List Sample
  wall : ℚ
deriving DecidableEq

/-- The mutable accumulators initialised before the repetition loop
(lines 153-157): `latencies`, `hits`, `recalls`, `qps_by_rep` and
`first_latency` (initially `None`). -/
structure KAcc where
  latencies : List ℚ
  hits : List ℚ
  recalls : List ℚ
  qps_by_rep : List ℚ
  first_latency : Option ℚ
deriving DecidableEq

/-- The `results[db_name][f"k={k}"]` record (lines 231-243), restricted to
the statistics derived from the accumulators.  `latency_var_sec2` stands for
the square of `latency_stddev_sec` (see the module docstring). -/
structure KResult where
  avg_query_latency_sec : Option ℚ
  p50_query_latency_sec : Option ℚ
  p95_query_latency_sec : Option ℚ
  p99_query_latency_sec : Option ℚ
  latency_var_sec2 : Option ℚ
  first_query_latency_sec : Option ℚ
  avg_hits_at_k : Option ℚ
  avg_recall_at_k : Option ℚ
  avg_qps : Option ℚ
deriving DecidableEq

/-- `np.mean` over an exact sample list. -/
def npMean (xs : List ℚ) : ℚ := xs.sum / (xs.length : ℚ)

/-- `np.std(xs)**2`: the population variance, mean of squared deviations
from the mean (NumPy default `ddof=0`). -/
def npVar (xs : List ℚ) : ℚ := npMean (xs.map fun x => (x - npMean xs) ^ 2)

/-- Floor of a nonnegative rational, as a natural number. -/
def qFloorNat (q : ℚ) : ℕ := q.num.toNat / q.den

/-- Ceiling of a nonnegative rational, as a natural number. -/
def qCeilNat (q : ℚ) : ℕ := (q.num.toNat + q.den - 1) / q.den

/-- The ascending sort `np.percentile` works on. -/
def npSorted (xs : List ℚ) : List ℚ := List.insertionSort (· ≤ ·) xs

/-- The virtual index `h = (n-1)·p/100` of `np.percentile` (`n ≥ 1` in all
uses; the `n - 1` is natural subtraction). -/
def npH (p : ℕ) (xs : List ℚ) : ℚ := ((xs.length - 1 : ℕ) : ℚ) * (p : ℚ) / 100

/-- `np.percentile(xs, p)` with the default linear interpolation: on the
ascending sort `a` of `xs`, the result interpolates between `a[⌊h⌋]` and
`a[⌈h⌉]` at the virtual index `h`. -/
def npPercentile (p : ℕ) (xs : List ℚ) : ℚ :=
  (npSorted xs).getD (qFloorNat (npH p xs)) 0 +
    (npH p xs - (qFloorNat (npH p xs) : ℚ)) *
      ((npSorted xs).getD (qCeilNat (npH p xs)) 0 -
        (npSorted xs).getD (qFloorNat (npH p xs)) 0)

/-- The repetition throughput appended at line 219-220:
`qps = len(queries) / wall if wall > 0 else 0.0`. -/
def rep_qps (nQueries : ℕ) (r : RepOutcome) : ℚ :=
  if 0 < r.wall then (nQueries : ℚ) / r.wall else 0

/-- Processing of one completed sample inside the `as_completed` loop
(lines 179-217): record the first-completed latency if none is recorded yet
and append latency, hit and recall to the accumulators. -/
def procSample (a : KAcc) (s : Sample) : KAcc :=
  { a with
    first_latency := match a.first_latency with
      | none => some s.latency
      | some x => some x
    latencies := a.latencies ++ [s.latency]
    hits := a.hits ++ [s.hit]
    recalls := a.recalls ++ [s.recallScore] }

/-- One iteration of the repetition loop (lines 163-220): consume all of the
repetition's samples, then append the repetition's wall-clock throughput. -/
def procRep (nQueries : ℕ) (a : KAcc) (r : RepOutcome) : KAcc :=
  let a1 := r.samples.foldl procSample a
  { a1 with qps_by_rep := a1.qps_by_rep ++ [rep_qps nQueries r] }

/-- The statistics block computed after the repetition loop (lines 222-229):
every statistic is `None` when its underlying sample list is empty,
mirroring the `if latencies else None` guards. -/
def statsOf (a : KAcc) : KResult where
  avg_query_latency_sec := if a.latencies.isEmpty then none else some (npMean a.latencies)
  p50_query_latency_sec := if a.latencies.isEmpty then none else some (npPercentile 50 a.latencies)
  p95_query_latency_sec := if a.latencies.isEmpty then none else some (npPercentile 95 a.latencies)
  p99_query_latency_sec := if a.latencies.isEmpty then none else some (npPercentile 99 a.latencies)
  latency_var_sec2 := if a.latencies.isEmpty then none else some (npVar a.latencies)
  first_query_latency_sec := a.first_latency
  avg_hits_at_k := if a.hits.isEmpty then none else some (npMean a.hits)
  avg_recall_at_k := if a.recalls.isEmpty then none else some (npMean a.recalls)
  avg_qps := if a.qps_by_rep.isEmpty then none else some (npMean a.qps_by_rep)

/-- The accumulator state at line 157: all lists empty, `first_latency = None`. -/
def initAcc : KAcc := ⟨[], [], [], [], none⟩

/-- The whole per-(backend, k) measurement (lines 152-243): fold the
repetition loop over all repetitions, then compute the statistics block. -/
def runK (nQueries : ℕ) (reps : List RepOutcome) : KResult :=
  statsOf (reps.foldl (procRep nQueries) initAcc)

/-- All latencies of all repetitions, pooled in processing order. -/
def pooledLat (reps : List RepOutcome) : List ℚ :=
  (reps.map fun r => r.samples.map Sample.latency).flatten

/-- All hit scores of all repetitions, pooled in processing order. -/
def pooledHits (reps : List RepOutcome) : List ℚ :=
  (reps.map fun r => r.samples.map Sample.hit).flatten

/-- All recall scores of all repetitions, pooled in processing order. -/
def pooledRecalls (reps : List RepOutcome) : List ℚ :=
  (reps.map fun r => r.samples.map Sample.recallScore).flatten

/-- Following the spec's words (§3 **BackendKResult**: "mean of each
RepetitionSummary statistic across all repetitions"): the p50 latency of each
repetition separately, then the mean across repetitions.  Used only to be
compared against the aggregation the code performs. -/
def specPerRepP50Mean (reps : List RepOutcome) : Option ℚ :=
  if reps.isEmpty then none
  else some (npMean (reps.map fun r => npPercentile 50 (r.samples.map Sample.latency)))

/-! ## `_one_query` latency measurement (benchmark.py lines 168-173) -/

/-- The wall clock visible to `_one_query`.  `time.time()` readings advance
by the duration of the work performed plus any adjustment of the system wall
clock in the same interval; `time.time()` is not a monotonic source, so the
adjustment may be negative. -/
structure Clock where
  now : ℚ
deriving DecidableEq

/-- Performing work of duration `d` while the wall clock also sees an
externally imposed adjustment `adj` (zero for an ideal clock; a monotonic
source never lets `d + adj` fall below the true elapsed work). -/
def tick (c : Clock) (d adj : ℚ) : Clock := ⟨c.now + d + adj⟩

/-- `_one_query` (lines 168-173): embed the query (line 169, untimed), read
`s0 = time.time()` (line 170), run `db.search` (line 171), and record
`latency = time.time() - s0` (line 172).  `dEmbed`/`dSearch` are the true
durations of the two calls; `adjEmbed`/`adjSearch` the wall-clock
adjustments during each. -/
def one_query_latency (c : Clock) (dEmbed adjEmbed dSearch adjSearch : ℚ) : ℚ :=
  let c1 := tick c dEmbed adjEmbed
  let s0 := c1.now
  let c2 := tick c1 dSearch adjSearch
  c2.now - s0

/-! ## Propagation of a failing `db.search` (benchmark.py lines 177-183) -/

/-- The `for f in as_completed(futs): ... f.result()` loop (lines 179-180)
over the per-query outcomes in completion order.  `f.result()` re-raises any
exception the worker raised; there is no `try`/`except` anywhere in `main`,
so the first failing outcome propagates and every collected sample is lost. -/
def collect_results : List (Except String Sample) → Except String (List Sample)
  | [] => Except.ok []
  | Except.error e :: _ => Except.error e
  | Except.ok s :: rest => (collect_results rest).map (fun ss => s :: ss)

/-! ## Backend dispatch and the main loop (benchmark.py lines 36-54, 129-141, 245-247) -/

/-- `str.lower()`, as the character-wise lowercase map. -/
def strLower (s : String) : String := ⟨s.data.map Char.toLower⟩

/-- The five backends `get_db` can construct. -/
inductive DBKind
  | qdrant
  | milvus
  | weaviate
  | pinecone
  | topk
deriving DecidableEq

/-- `get_db` (lines 36-54): dispatch on the lowercased name; an unsupported
name falls off the end of the `if` chain and Python returns `None`. -/
def get_db (name : String) : Option DBKind :=
  let n := strLower name
  if n = "qdrant" then some DBKind.qdrant
  else if n = "milvus" then some DBKind.milvus
  else if n = "weaviate" then some DBKind.weaviate
  else if n = "pinecone" then some DBKind.pinecone
  else if n = "topk" then some DBKind.topk
  else none

/-- The externally visible adapter calls the main loop makes for one
backend, in program order. -/
inductive Ev
  | setup (db : String)
  | upsert (db : String)
  | sweep (db : String) (k : ℕ)
  | teardown (db : String)
deriving DecidableEq

/-- The backend name an event concerns. -/
def ev_db : Ev → String
  | Ev.setup n => n
  | Ev.upsert n => n
  | Ev.sweep n _ => n
  | Ev.teardown n => n

/-- The adapter calls issued for one supported backend (lines 130-247):
setup (lines 133-136), upsert (lines 138-141), the k sweep (lines 152-243),
and teardown unless the lowercased name is `"pinecone"` (lines 245-247). -/
def bench_backend (name : String) (topks : List ℕ) : List Ev :=
  [Ev.setup name, Ev.upsert name] ++ topks.map (Ev.sweep name) ++
    (if strLower name = "pinecone" then [] else [Ev.teardown name])

/-- The `for db_name in args.dbs` loop (line 129 onwards): each backend is
processed in list order; when `get_db` returned `None`, the very first
attribute access `db.setup(...)` raises `AttributeError`, which nothing
catches — the run stops there (`true` in the second component), with no
adapter call made for that backend and no later backend processed. -/
def run_backends : List String → List ℕ → List Ev × Bool
  | [], _ => ([], false)
  | name :: rest, topks =>
    if (get_db name).isSome then
      ((bench_backend name topks ++ (run_backends rest topks).1),
        (run_backends rest topks).2)
    else ([], true)

/-- The lifecycle state of one backend's index, as driven by the adapter
calls the core issues. -/
inductive DBState
  | initial
  | ready
  | ingested
  | destroyed
deriving DecidableEq

/-- Effect of one adapter call on the state of the backend called `name`:
`setup` prepares it, `upsert` ingests the reference vectors, `search`
(a sweep) leaves the index unchanged, `teardown` destroys it. -/
def apply_ev (name : String) (st : DBState) (e : Ev) : DBState :=
  if ev_db e = name then
    match e with
    | Ev.setup _ => DBState.ready
    | Ev.upsert _ => DBState.ingested
    | Ev.sweep _ _ => st
    | Ev.teardown _ => DBState.destroyed
  else st

/-- The state of backend `name` after a trace of adapter calls. -/
def final_state (name : String) (tr : List Ev) : DBState :=
  tr.foldl (apply_ev name) DBState.initial

/-! ## Recorded run configuration (benchmark.py lines 118-126, 138-141) -/

/-- `results["_config"]["batch_size"]` (line 120): the batch size recorded
in the results snapshot, a constant `2000`. -/
def config_batch_size : ℕ := 2000

/-- The batch size actually passed to `db.upsert` (lines 138-141):
`batch_size=200` for the pinecone backend, no batch size at all otherwise. -/
def upsert_batch_size (db_name : String) : Option ℕ :=
  if strLower db_name = "pinecone" then some 200 else none


/-! ## Helper lemmas about the baseline oracle -/

theorem sims_length (qv : List ℚ) (mat : List (List ℚ)) :
    (sims qv mat).length = mat.length := by
  simp [sims]

theorem argsortDesc_perm (s : List ℚ) : List.Perm (argsortDesc s) (List.range s.length) :=
  List.perm_insertionSort _ _

theorem argsortDesc_length (s : List ℚ) : (argsortDesc s).length = s.length := by
  rw [(argsortDesc_perm s).length_eq, List.length_range]

theorem argsortDesc_nodup (s : List ℚ) : (argsortDesc s).Nodup :=
  (argsortDesc_perm s).nodup_iff.mpr (List.nodup_range _)

theorem argsortDesc_sorted (s : List ℚ) : List.Sorted (argRel s) (argsortDesc s) :=
  List.sorted_insertionSort _ _

theorem mem_argsortDesc (s : List ℚ) {i : ℕ} : i ∈ argsortDesc s ↔ i < s.length := by
  rw [(argsortDesc_perm s).mem_iff, List.mem_range]

theorem argRel_score_le {s : List ℚ} {i j : ℕ} (h : argRel s i j) :
    scoreAt s j ≤ scoreAt s i := by
  rcases h with h | ⟨h, _⟩
  · exact h.le
  · exact h.ge

theorem exact_topk_eq_take (qv : List ℚ) (mat : List (List ℚ)) (k : ℕ) :
    exact_topk_indices qv mat k = (argsortDesc (sims qv mat)).take k := by
  unfold exact_topk_indices
  split
  · rw [List.take_of_length_le]
    rw [argsortDesc_length]
    assumption
  · rfl

theorem exact_topk_length (qv : List ℚ) (mat : List (List ℚ)) (k : ℕ) :
    (exact_topk_indices qv mat k).length = min k mat.length := by
  rw [exact_topk_eq_take, List.length_take, argsortDesc_length, sims_length]

theorem exact_topk_nodup (qv : List ℚ) (mat : List (List ℚ)) (k : ℕ) :
    (exact_topk_indices qv mat k).Nodup := by
  rw [exact_topk_eq_take]
  exact (argsortDesc_nodup _).sublist (List.take_sublist _ _)

theorem exact_topk_mem_lt (qv : List ℚ) (mat : List (List ℚ)) (k : ℕ) {i : ℕ}
    (h : i ∈ exact_topk_indices qv mat k) : i < mat.length := by
  rw [exact_topk_eq_take] at h
  have h2 : i ∈ argsortDesc (sims qv mat) := List.take_subset _ _ h
  rw [mem_argsortDesc, sims_length] at h2
  exact h2

theorem exact_topk_sorted (qv : List ℚ) (mat : List (List ℚ)) (k : ℕ) :
    List.Sorted (fun i j => scoreAt (sims qv mat) j ≤ scoreAt (sims qv mat) i)
      (exact_topk_indices qv mat k) := by
  rw [exact_topk_eq_take]
  have h : List.Sorted (fun i j => scoreAt (sims qv mat) j ≤ scoreAt (sims qv mat) i)
      (argsortDesc (sims qv mat)) :=
    (argsortDesc_sorted (sims qv mat)).imp fun hab => argRel_score_le hab
  exact h.sublist (List.take_sublist _ _)

theorem exact_topk_separates (qv : List ℚ) (mat : List (List ℚ)) (k : ℕ) {i j : ℕ}
    (hi : i ∈ exact_topk_indices qv mat k) (hj : j < mat.length)
    (hj2 : j ∉ exact_topk_indices qv mat k) :
    scoreAt (sims qv mat) j ≤ scoreAt (sims qv mat) i := by
  rw [exact_topk_eq_take] at hi hj2
  have hjA : j ∈ argsortDesc (sims qv mat) := by
    rw [mem_argsortDesc, sims_length]
    exact hj
  have hsplit := List.take_append_drop k (argsortDesc (sims qv mat))
  have hjdrop : j ∈ (argsortDesc (sims qv mat)).drop k := by
    rw [← hsplit] at hjA
    rcases List.mem_append.mp hjA with hcase | hcase
    · exact absurd hcase hj2
    · exact hcase
  have hpair : List.Pairwise (argRel (sims qv mat))
      ((argsortDesc (sims qv mat)).take k ++ (argsortDesc (sims qv mat)).drop k) := by
    rw [hsplit]
    exact argsortDesc_sorted (sims qv mat)
  exact argRel_score_le ((List.pairwise_append.mp hpair).2.2 i hi j hjdrop)

theorem exact_topk_perm_of_le (qv : List ℚ) (mat : List (List ℚ)) (k : ℕ)
    (h : mat.length ≤ k) : List.Perm (exact_topk_indices qv mat k) (List.range mat.length) := by
  rw [exact_topk_eq_take, List.take_of_length_le (by rw [argsortDesc_length, sims_length]; exact h)]
  have hp := argsortDesc_perm (sims qv mat)
  rwa [sims_length] at hp

/-- C1: `exact_topk_indices` returns `min k N` indices (all `N` when
`k ≥ N`), without duplicates, all in range, ordered by descending
dot-product score, and every returned index scores at least as high as every
index left out; when `k ≥ N` the output is a permutation of all `N`
indices, each exactly once.  Determinism for a fixed input is inherent: the
embedding is a pure function of its arguments. -/
theorem exact_topk_correct (qv : List ℚ) (mat : List (List ℚ)) (k : ℕ) (hk : 1 ≤ k) :
    (exact_topk_indices qv mat k).length = min k mat.length ∧
    (exact_topk_indices qv mat k).Nodup ∧
    (∀ i ∈ exact_topk_indices qv mat k, i < mat.length) ∧
    List.Sorted (fun i j => scoreAt (sims qv mat) j ≤ scoreAt (sims qv mat) i)
      (exact_topk_indices qv mat k) ∧
    (∀ i ∈ exact_topk_indices qv mat k, ∀ j < mat.length,
      j ∉ exact_topk_indices qv mat k →
        scoreAt (sims qv mat) j ≤ scoreAt (sims qv mat) i) ∧
    (mat.length ≤ k → List.Perm (exact_topk_indices qv mat k) (List.range mat.length)) :=
  ⟨exact_topk_length qv mat k, exact_topk_nodup qv mat k,
    fun _ hi => exact_topk_mem_lt qv mat k hi,
    exact_topk_sorted qv mat k,
    fun _ hi _ hj hj2 => exact_topk_separates qv mat k hi hj hj2,
    fun h => exact_topk_perm_of_le qv mat k h⟩

/-- Witness for C1 at the concrete input `qv = [1, 0]`,
`mat = [[0, 1], [1, 0], [1, 1]]`, `k = 2`. -/
theorem exact_topk_correct_witness :
    (exact_topk_indices [1, 0] [[0, 1], [1, 0], [1, 1]] 2).length =
      min 2 ([[0, 1], [1, 0], [1, 1]] : List (List ℚ)).length ∧
    (exact_topk_indices [1, 0] [[0, 1], [1, 0], [1, 1]] 2).Nodup ∧
    (∀ i ∈ exact_topk_indices [1, 0] [[0, 1], [1, 0], [1, 1]] 2,
      i < ([[0, 1], [1, 0], [1, 1]] : List (List ℚ)).length) ∧
    List.Sorted (fun i j => scoreAt (sims [1, 0] [[0, 1], [1, 0], [1, 1]]) j ≤
        scoreAt (sims [1, 0] [[0, 1], [1, 0], [1, 1]]) i)
      (exact_topk_indices [1, 0] [[0, 1], [1, 0], [1, 1]] 2) ∧
    (∀ i ∈ exact_topk_indices [1, 0] [[0, 1], [1, 0], [1, 1]] 2,
      ∀ j < ([[0, 1], [1, 0], [1, 1]] : List (List ℚ)).length,
      j ∉ exact_topk_indices [1, 0] [[0, 1], [1, 0], [1, 1]] 2 →
        scoreAt (sims [1, 0] [[0, 1], [1, 0], [1, 1]]) j ≤
          scoreAt (sims [1, 0] [[0, 1], [1, 0], [1, 1]]) i) ∧
    (([[0, 1], [1, 0], [1, 1]] : List (List ℚ)).length ≤ 2 →
      List.Perm (exact_topk_indices [1, 0] [[0, 1], [1, 0], [1, 1]] 2)
        (List.range ([[0, 1], [1, 0], [1, 1]] : List (List ℚ)).length)) :=
  exact_topk_correct [1, 0] [[0, 1], [1, 0], [1, 1]] 2 (by norm_num)


/-! ## Recall self-consistency (C2) -/

/-- On a backend result whose identifier set is exactly the baseline's own
output, the computed recall is `min k N / k`: the intersection is the whole
baseline output, whose size is `min k N`, while the code divides by `k`
(line 217). -/
theorem recall_self_eq (qv : List ℚ) (mat : List (List ℚ)) (k : ℕ) (res_ids : List ℕ)
    (hk : 0 < k)
    (hres : res_ids.toFinset = (exact_topk_indices qv mat k).toFinset) :
    recall_value (exact_topk_indices qv mat k) res_ids k =
      ((min k mat.length : ℕ) : ℚ) / (k : ℚ) := by
  unfold recall_value
  rw [if_pos hk, hres, Finset.inter_self,
    List.toFinset_card_of_nodup (exact_topk_nodup qv mat k), exact_topk_length]

/-- C2 (amended): recall-at-k computed against `ExactTopK`'s own output as
the backend result equals `min k N / k`; in particular it equals `1.0`
whenever `k ≤ N`, but for `k > N` the code divides the `N`-element
intersection by `k` and the recall falls below `1.0`. -/
theorem recall_self_consistency (qv : List ℚ) (mat : List (List ℚ)) (k : ℕ)
    (res_ids : List ℕ) (hk : 1 ≤ k)
    (hres : res_ids.toFinset = (exact_topk_indices qv mat k).toFinset) :
    recall_value (exact_topk_indices qv mat k) res_ids k =
      ((min k mat.length : ℕ) : ℚ) / (k : ℚ) ∧
    (k ≤ mat.length →
      recall_value (exact_topk_indices qv mat k) res_ids k = 1) := by
  refine ⟨recall_self_eq qv mat k res_ids hk hres, fun hle => ?_⟩
  rw [recall_self_eq qv mat k res_ids hk hres, min_eq_left hle]
  exact div_self (Nat.cast_ne_zero.mpr (by omega))

/-- Counterexample to C2 as stated: with a single reference vector
(`N = 1`) and `k = 2`, the recall of the baseline against its own output is
`1/2`, not `1.0` — the code divides the intersection size by `k`, not by
the size of the baseline output. -/
theorem recall_self_counterexample :
    recall_value (exact_topk_indices [1] [[1]] 2) (exact_topk_indices [1] [[1]] 2) 2
      = 1 / 2 ∧
    recall_value (exact_topk_indices [1] [[1]] 2) (exact_topk_indices [1] [[1]] 2) 2
      ≠ 1 := by
  have h := recall_self_eq [1] [[1]] 2 (exact_topk_indices [1] [[1]] 2) (by norm_num) rfl
  rw [h]
  norm_num

/-- Witness for C2 (amended) at `qv = [1, 0]`, `mat = [[1, 0], [0, 1]]`,
`k = 2`, with the backend returning the baseline's own output. -/
theorem recall_self_consistency_witness :
    recall_value (exact_topk_indices [1, 0] [[1, 0], [0, 1]] 2)
        (exact_topk_indices [1, 0] [[1, 0], [0, 1]] 2) 2 =
      ((min 2 ([[1, 0], [0, 1]] : List (List ℚ)).length : ℕ) : ℚ) / (2 : ℚ) ∧
    (2 ≤ ([[1, 0], [0, 1]] : List (List ℚ)).length →
      recall_value (exact_topk_indices [1, 0] [[1, 0], [0, 1]] 2)
        (exact_topk_indices [1, 0] [[1, 0], [0, 1]] 2) 2 = 1) :=
  recall_self_consistency [1, 0] [[1, 0], [0, 1]] 2
    (exact_topk_indices [1, 0] [[1, 0], [0, 1]] 2) (by norm_num) rfl


/-! ## Characterizing the aggregation loop -/

theorem procSample_foldl_latencies (ss : List Sample) (a : KAcc) :
    (ss.foldl procSample a).latencies = a.latencies ++ ss.map Sample.latency := by
  induction ss generalizing a with
  | nil => simp
  | cons s t ih => simp [procSample, ih, List.append_assoc]

theorem procSample_foldl_hits (ss : List Sample) (a : KAcc) :
    (ss.foldl procSample a).hits = a.hits ++ ss.map Sample.hit := by
  induction ss generalizing a with
  | nil => simp
  | cons s t ih => simp [procSample, ih, List.append_assoc]

theorem procSample_foldl_recalls (ss : List Sample) (a : KAcc) :
    (ss.foldl procSample a).recalls = a.recalls ++ ss.map Sample.recallScore := by
  induction ss generalizing a with
  | nil => simp
  | cons s t ih => simp [procSample, ih, List.append_assoc]

theorem procSample_foldl_qps (ss : List Sample) (a : KAcc) :
    (ss.foldl procSample a).qps_by_rep = a.qps_by_rep := by
  induction ss generalizing a with
  | nil => rfl
  | cons s t ih => simp [procSample, ih]

theorem procSample_foldl_first (ss : List Sample) (a : KAcc) :
    (ss.foldl procSample a).first_latency =
      a.first_latency.or (ss.map Sample.latency).head? := by
  induction ss generalizing a with
  | nil => simp
  | cons s t ih =>
    rw [List.foldl_cons, ih]
    cases h : a.first_latency <;> simp [procSample, h, Option.or]

theorem procRep_foldl_latencies (n : ℕ) (reps : List RepOutcome) (a : KAcc) :
    (reps.foldl (procRep n) a).latencies = a.latencies ++ pooledLat reps := by
  induction reps generalizing a with
  | nil => simp [pooledLat]
  | cons r t ih =>
    simp [procRep, ih, procSample_foldl_latencies, pooledLat, List.append_assoc]

theorem procRep_foldl_hits (n : ℕ) (reps : List RepOutcome) (a : KAcc) :
    (reps.foldl (procRep n) a).hits = a.hits ++ pooledHits reps := by
  induction reps generalizing a with
  | nil => simp [pooledHits]
  | cons r t ih =>
    simp [procRep, ih, procSample_foldl_hits, pooledHits, List.append_assoc]

theorem procRep_foldl_recalls (n : ℕ) (reps : List RepOutcome) (a : KAcc) :
    (reps.foldl (procRep n) a).recalls = a.recalls ++ pooledRecalls reps := by
  induction reps generalizing a with
  | nil => simp [pooledRecalls]
  | cons r t ih =>
    simp [procRep, ih, procSample_foldl_recalls, pooledRecalls, List.append_assoc]

theorem procRep_foldl_qps (n : ℕ) (reps : List RepOutcome) (a : KAcc) :
    (reps.foldl (procRep n) a).qps_by_rep = a.qps_by_rep ++ reps.map (rep_qps n) := by
  induction reps generalizing a with
  | nil => simp
  | cons r t ih =>
    simp [procRep, ih, procSample_foldl_qps, List.append_assoc]

theorem procRep_foldl_first (n : ℕ) (reps : List RepOutcome) (a : KAcc) :
    (reps.foldl (procRep n) a).first_latency =
      a.first_latency.or (pooledLat reps).head? := by
  induction reps generalizing a with
  | nil => simp [pooledLat]
  | cons r t ih =>
    rw [List.foldl_cons]
    have hstep : (procRep n a r).first_latency =
        a.first_latency.or (r.samples.map Sample.latency).head? := by
      simp [procRep, procSample_foldl_first]
    rw [ih, hstep, Option.or_assoc]
    have hpool : pooledLat (r :: t) = r.samples.map Sample.latency ++ pooledLat t := by
      simp [pooledLat]
    rw [hpool, List.head?_append]

theorem runK_acc_latencies (n : ℕ) (reps : List RepOutcome) :
    (reps.foldl (procRep n) initAcc).latencies = pooledLat reps := by
  rw [procRep_foldl_latencies]; rfl

theorem runK_acc_hits (n : ℕ) (reps : List RepOutcome) :
    (reps.foldl (procRep n) initAcc).hits = pooledHits reps := by
  rw [procRep_foldl_hits]; rfl

theorem runK_acc_recalls (n : ℕ) (reps : List RepOutcome) :
    (reps.foldl (procRep n) initAcc).recalls = pooledRecalls reps := by
  rw [procRep_foldl_recalls]; rfl

theorem runK_acc_qps (n : ℕ) (reps : List RepOutcome) :
    (reps.foldl (procRep n) initAcc).qps_by_rep = reps.map (rep_qps n) := by
  rw [procRep_foldl_qps]; rfl

theorem runK_acc_first (n : ℕ) (reps : List RepOutcome) :
    (reps.foldl (procRep n) initAcc).first_latency = (pooledLat reps).head? := by
  rw [procRep_foldl_first]; rfl

theorem runK_p50 (n : ℕ) (reps : List RepOutcome) :
    (runK n reps).p50_query_latency_sec =
      if (pooledLat reps).isEmpty then none else some (npPercentile 50 (pooledLat reps)) := by
  unfold runK statsOf
  rw [runK_acc_latencies]

theorem runK_p95 (n : ℕ) (reps : List RepOutcome) :
    (runK n reps).p95_query_latency_sec =
      if (pooledLat reps).isEmpty then none else some (npPercentile 95 (pooledLat reps)) := by
  unfold runK statsOf
  rw [runK_acc_latencies]

theorem runK_p99 (n : ℕ) (reps : List RepOutcome) :
    (runK n reps).p99_query_latency_sec =
      if (pooledLat reps).isEmpty then none else some (npPercentile 99 (pooledLat reps)) := by
  unfold runK statsOf
  rw [runK_acc_latencies]

theorem runK_avg_latency (n : ℕ) (reps : List RepOutcome) :
    (runK n reps).avg_query_latency_sec =
      if (pooledLat reps).isEmpty then none else some (npMean (pooledLat reps)) := by
  unfold runK statsOf
  rw [runK_acc_latencies]

theorem runK_var (n : ℕ) (reps : List RepOutcome) :
    (runK n reps).latency_var_sec2 =
      if (pooledLat reps).isEmpty then none else some (npVar (pooledLat reps)) := by
  unfold runK statsOf
  rw [runK_acc_latencies]

theorem runK_first (n : ℕ) (reps : List RepOutcome) :
    (runK n reps).first_query_latency_sec = (pooledLat reps).head? := by
  unfold runK statsOf
  rw [runK_acc_first]

theorem runK_avg_hits (n : ℕ) (reps : List RepOutcome) :
    (runK n reps).avg_hits_at_k =
      if (pooledHits reps).isEmpty then none else some (npMean (pooledHits reps)) := by
  unfold runK statsOf
  rw [runK_acc_hits]

theorem runK_avg_recall (n : ℕ) (reps : List RepOutcome) :
    (runK n reps).avg_recall_at_k =
      if (pooledRecalls reps).isEmpty then none
      else some (npMean (pooledRecalls reps)) := by
  unfold runK statsOf
  rw [runK_acc_recalls]

theorem runK_avg_qps (n : ℕ) (reps : List RepOutcome) :
    (runK n reps).avg_qps =
      if reps.isEmpty then none else some (npMean (reps.map (rep_qps n))) := by
  unfold runK statsOf
  rw [runK_acc_qps]
  cases reps <;> simp


/-! ## C3: pooled aggregation vs per-repetition aggregation -/

/-- C3 (amended): the final per-(backend, k) statistics are computed once
over the samples of all repetitions pooled together — mean, p50/p95/p99 and
variance of the pooled latency list, the pooled hit and recall means, and
the first-completed latency is simply the first sample processed in the
first non-empty repetition; only the throughput is computed per repetition
and then averaged across repetitions. -/
theorem aggregation_pooled (n : ℕ) (reps : List RepOutcome) :
    (runK n reps).avg_query_latency_sec =
      (if (pooledLat reps).isEmpty then none else some (npMean (pooledLat reps))) ∧
    (runK n reps).p50_query_latency_sec =
      (if (pooledLat reps).isEmpty then none else some (npPercentile 50 (pooledLat reps))) ∧
    (runK n reps).p95_query_latency_sec =
      (if (pooledLat reps).isEmpty then none else some (npPercentile 95 (pooledLat reps))) ∧
    (runK n reps).p99_query_latency_sec =
      (if (pooledLat reps).isEmpty then none else some (npPercentile 99 (pooledLat reps))) ∧
    (runK n reps).latency_var_sec2 =
      (if (pooledLat reps).isEmpty then none else some (npVar (pooledLat reps))) ∧
    (runK n reps).first_query_latency_sec = (pooledLat reps).head? ∧
    (runK n reps).avg_hits_at_k =
      (if (pooledHits reps).isEmpty then none else some (npMean (pooledHits reps))) ∧
    (runK n reps).avg_recall_at_k =
      (if (pooledRecalls reps).isEmpty then none else some (npMean (pooledRecalls reps))) ∧
    (runK n reps).avg_qps =
      (if reps.isEmpty then none else some (npMean (reps.map (rep_qps n)))) :=
  ⟨runK_avg_latency n reps, runK_p50 n reps, runK_p95 n reps, runK_p99 n reps,
    runK_var n reps, runK_first n reps, runK_avg_hits n reps,
    runK_avg_recall n reps, runK_avg_qps n reps⟩

theorem npPercentile50_pooled_example : npPercentile 50 [0, 1, 1] = 1 := by
  have hs : npSorted ([0, 1, 1] : List ℚ) = [0, 1, 1] := by
    have h2 : List.Sorted (· ≤ ·) ([0, 1, 1] : List ℚ) := by simp [List.sorted_cons]
    exact h2.insertionSort_eq
  have hH : npH 50 [0, 1, 1] = 1 := by unfold npH; norm_num
  unfold npPercentile
  rw [hs, hH, show qFloorNat 1 = 1 from by decide, show qCeilNat 1 = 1 from by decide]
  norm_num

theorem npPercentile50_single0 : npPercentile 50 [0] = 0 := by
  have hs : npSorted ([0] : List ℚ) = [0] := by
    have h2 : List.Sorted (· ≤ ·) ([0] : List ℚ) := by simp
    exact h2.insertionSort_eq
  have hH : npH 50 [0] = 0 := by unfold npH; norm_num
  unfold npPercentile
  rw [hs, hH, show qFloorNat 0 = 0 from by decide, show qCeilNat 0 = 0 from by decide]
  norm_num

theorem npPercentile50_single1 : npPercentile 50 [1] = 1 := by
  have hs : npSorted ([1] : List ℚ) = [1] := by
    have h2 : List.Sorted (· ≤ ·) ([1] : List ℚ) := by simp
    exact h2.insertionSort_eq
  have hH : npH 50 [1] = 0 := by unfold npH; norm_num
  unfold npPercentile
  rw [hs, hH, show qFloorNat 0 = 0 from by decide, show qCeilNat 0 = 0 from by decide]
  norm_num

/-- Counterexample to C3 as stated: three repetitions with one latency
sample each (`0`, `1`, `1`).  The code's p50 is the median of the pooled
list `[0, 1, 1]`, namely `1`; the mean of the per-repetition p50s would be
`(0 + 1 + 1)/3 = 2/3`.  The recorded result is the pooled value, not the
mean of per-repetition statistics. -/
theorem aggregation_pooled_counterexample :
    (runK 1 [⟨[⟨0, 0, 0⟩], 1⟩, ⟨[⟨1, 0, 0⟩], 1⟩,
        ⟨[⟨1, 0, 0⟩], 1⟩]).p50_query_latency_sec = some 1 ∧
    specPerRepP50Mean [⟨[⟨0, 0, 0⟩], 1⟩, ⟨[⟨1, 0, 0⟩], 1⟩, ⟨[⟨1, 0, 0⟩], 1⟩] =
      some (2 / 3) ∧
    (runK 1 [⟨[⟨0, 0, 0⟩], 1⟩, ⟨[⟨1, 0, 0⟩], 1⟩,
        ⟨[⟨1, 0, 0⟩], 1⟩]).p50_query_latency_sec ≠
      specPerRepP50Mean [⟨[⟨0, 0, 0⟩], 1⟩, ⟨[⟨1, 0, 0⟩], 1⟩, ⟨[⟨1, 0, 0⟩], 1⟩] := by
  have hpool : pooledLat [⟨[⟨0, 0, 0⟩], 1⟩, ⟨[⟨1, 0, 0⟩], 1⟩, ⟨[⟨1, 0, 0⟩], 1⟩]
      = [0, 1, 1] := rfl
  have h1 : (runK 1 [⟨[⟨0, 0, 0⟩], 1⟩, ⟨[⟨1, 0, 0⟩], 1⟩,
      ⟨[⟨1, 0, 0⟩], 1⟩]).p50_query_latency_sec = some 1 := by
    rw [runK_p50, hpool, npPercentile50_pooled_example]
    rfl
  have h2 : specPerRepP50Mean [⟨[⟨0, 0, 0⟩], 1⟩, ⟨[⟨1, 0, 0⟩], 1⟩,
      ⟨[⟨1, 0, 0⟩], 1⟩] = some (2 / 3) := by
    unfold specPerRepP50Mean
    rw [if_neg (by simp)]
    have hmap : ([⟨[⟨0, 0, 0⟩], 1⟩, ⟨[⟨1, 0, 0⟩], 1⟩,
        ⟨[⟨1, 0, 0⟩], 1⟩] : List RepOutcome).map
          (fun r => npPercentile 50 (r.samples.map Sample.latency)) =
        [npPercentile 50 [0], npPercentile 50 [1], npPercentile 50 [1]] := rfl
    rw [hmap, npPercentile50_single0, npPercentile50_single1]
    unfold npMean
    norm_num
  refine ⟨h1, h2, ?_⟩
  rw [h1, h2]
  norm_num

/-! ## C5: zero-query runs -/

theorem pooled_nil_of_empty {reps : List RepOutcome}
    (hempty : ∀ r ∈ reps, r.samples = []) :
    pooledLat reps = [] ∧ pooledHits reps = [] ∧ pooledRecalls reps = [] := by
  unfold pooledLat pooledHits pooledRecalls
  refine ⟨?_, ?_, ?_⟩ <;>
  · rw [List.flatten_eq_nil_iff]
    intro l hl
    obtain ⟨r, hr, rfl⟩ := List.mem_map.mp hl
    rw [hempty r hr]
    rfl

theorem rep_qps_zero (r : RepOutcome) : rep_qps 0 r = 0 := by
  unfold rep_qps
  split <;> simp

theorem npMean_replicate_zero (m : ℕ) : npMean (List.replicate m (0 : ℚ)) = 0 := by
  unfold npMean
  simp

/-- C5 (amended): with zero queries configured, every latency, hit-rate and
recall statistic and the first-completed latency are `None` — but `avg_qps`
is `0.0`, not null: each repetition still appends
`len(queries)/wall = 0` (or the `else 0.0` branch) to `qps_by_rep`, so the
mean over a non-empty repetition list is `0.0`. -/
theorem empty_sample_stats (n : ℕ) (reps : List RepOutcome) (hn : n = 0)
    (hempty : ∀ r ∈ reps, r.samples = []) (hreps : reps ≠ []) :
    (runK n reps).avg_query_latency_sec = none ∧
    (runK n reps).p50_query_latency_sec = none ∧
    (runK n reps).p95_query_latency_sec = none ∧
    (runK n reps).p99_query_latency_sec = none ∧
    (runK n reps).latency_var_sec2 = none ∧
    (runK n reps).first_query_latency_sec = none ∧
    (runK n reps).avg_hits_at_k = none ∧
    (runK n reps).avg_recall_at_k = none ∧
    (runK n reps).avg_qps = some 0 := by
  obtain ⟨hl, hh, hc⟩ := pooled_nil_of_empty hempty
  subst hn
  refine ⟨?_, ?_, ?_, ?_, ?_, ?_, ?_, ?_, ?_⟩
  · rw [runK_avg_latency, hl]; rfl
  · rw [runK_p50, hl]; rfl
  · rw [runK_p95, hl]; rfl
  · rw [runK_p99, hl]; rfl
  · rw [runK_var, hl]; rfl
  · rw [runK_first, hl]; rfl
  · rw [runK_avg_hits, hh]; rfl
  · rw [runK_avg_recall, hc]; rfl
  · rw [runK_avg_qps, if_neg (by simpa using hreps)]
    have hmap : reps.map (rep_qps 0) = List.replicate reps.length 0 := by
      rw [← List.map_const']
      exact List.map_congr_left fun r _ => rep_qps_zero r
    rw [hmap, npMean_replicate_zero]

/-- Counterexample to C5 as stated: a run with zero queries and one
repetition (taking `5` seconds of wall time) records `avg_qps = 0.0`,
a value coerced to zero rather than the null the claim requires. -/
theorem empty_sample_qps_counterexample :
    (runK 0 [⟨[], 5⟩]).avg_qps = some 0 ∧ (runK 0 [⟨[], 5⟩]).avg_qps ≠ none := by
  have h : (runK 0 [⟨[], 5⟩]).avg_qps = some 0 := by
    rw [runK_avg_qps, if_neg (by simp)]
    have hmap : ([⟨[], 5⟩] : List RepOutcome).map (rep_qps 0) = [0] := by
      rw [List.map_cons, List.map_nil, rep_qps_zero]
    rw [hmap]
    unfold npMean
    norm_num
  exact ⟨h, by rw [h]; simp⟩

/-- Witness for C5 (amended) at `n = 0`, one repetition with no samples and
wall time `5`. -/
theorem empty_sample_stats_witness :
    (runK 0 [⟨[], 5⟩]).avg_query_latency_sec = none ∧
    (runK 0 [⟨[], 5⟩]).p50_query_latency_sec = none ∧
    (runK 0 [⟨[], 5⟩]).p95_query_latency_sec = none ∧
    (runK 0 [⟨[], 5⟩]).p99_query_latency_sec = none ∧
    (runK 0 [⟨[], 5⟩]).latency_var_sec2 = none ∧
    (runK 0 [⟨[], 5⟩]).first_query_latency_sec = none ∧
    (runK 0 [⟨[], 5⟩]).avg_hits_at_k = none ∧
    (runK 0 [⟨[], 5⟩]).avg_recall_at_k = none ∧
    (runK 0 [⟨[], 5⟩]).avg_qps = some 0 :=
  empty_sample_stats 0 [⟨[], 5⟩] rfl
    (by intro r hr; rw [List.mem_singleton.mp hr]) (by simp)

/-! ## C7: wall-clock throughput -/

/-- C7: each repetition's recorded throughput is the query count divided by
that repetition's single wall-clock span (dispatch start to the end of the
collection of the last sample), not a function of the individual latencies;
the reported `avg_qps` is the mean of these per-repetition throughputs. -/
theorem throughput_wallclock (n : ℕ) (reps : List RepOutcome) (hr : reps ≠ [])
    (hw : ∀ r ∈ reps, 0 < r.wall) :
    (runK n reps).avg_qps = some (npMean (reps.map fun r => (n : ℚ) / r.wall)) ∧
    (∀ r ∈ reps, rep_qps n r = (n : ℚ) / r.wall) ∧
    (∀ g : RepOutcome → List Sample,
      (runK n (reps.map fun r => RepOutcome.mk (g r) r.wall)).avg_qps =
        (runK n reps).avg_qps) := by
  have hq : ∀ r ∈ reps, rep_qps n r = (n : ℚ) / r.wall := by
    intro r hr2
    unfold rep_qps
    rw [if_pos (hw r hr2)]
  refine ⟨?_, hq, ?_⟩
  · rw [runK_avg_qps, if_neg (by simpa using hr)]
    rw [List.map_congr_left hq]
  · intro g
    rw [runK_avg_qps, runK_avg_qps]
    have hlen : ((reps.map fun r => RepOutcome.mk (g r) r.wall).isEmpty) = reps.isEmpty := by
      cases reps <;> rfl
    rw [hlen, List.map_map]
    have hmap : (reps.map (rep_qps n ∘ fun r => RepOutcome.mk (g r) r.wall)) =
        reps.map (rep_qps n) := List.map_congr_left fun r _ => rfl
    rw [hmap]

/-- Witness for C7 at `n = 4` queries and one repetition of wall time `2`. -/
theorem throughput_wallclock_witness :
    (runK 4 [⟨[], 2⟩]).avg_qps =
      some (npMean (([⟨[], 2⟩] : List RepOutcome).map fun r => ((4 : ℕ) : ℚ) / r.wall)) ∧
    (∀ r ∈ ([⟨[], 2⟩] : List RepOutcome), rep_qps 4 r = ((4 : ℕ) : ℚ) / r.wall) ∧
    (∀ g : RepOutcome → List Sample,
      (runK 4 (([⟨[], 2⟩] : List RepOutcome).map fun r =>
          RepOutcome.mk (g r) r.wall)).avg_qps = (runK 4 [⟨[], 2⟩]).avg_qps) :=
  throughput_wallclock 4 [⟨[], 2⟩] (by simp)
    (by intro r hr; rw [List.mem_singleton.mp hr]; norm_num)


/-! ## C4: a failing `db.search` aborts the run -/

/-- C4 (amended): when any query's `db.search` raises, `f.result()`
(line 180) re-raises it; nothing in the repetition loop or in `main`
catches it, so the exception propagates, no per-query failure is recorded,
and the entire run is aborted — no summary of any kind is produced. -/
theorem search_failure_aborts_run (outcomes : List (Except String Sample)) (e : String)
    (h : Except.error e ∈ outcomes) :
    (∃ e2, collect_results outcomes = Except.error e2) ∧
    ∀ ss, collect_results outcomes ≠ Except.ok ss := by
  induction outcomes with
  | nil => cases h
  | cons o rest ih =>
    cases o with
    | error e3 =>
      exact ⟨⟨e3, rfl⟩, fun ss => by simp [collect_results]⟩
    | ok s =>
      have h2 : Except.error e ∈ rest := by
        rcases List.mem_cons.mp h with h3 | h3
        · cases h3
        · exact h3
      obtain ⟨⟨e2, he2⟩, _⟩ := ih h2
      constructor
      · exact ⟨e2, by simp [collect_results, he2, Except.map]⟩
      · intro ss
        simp [collect_results, he2, Except.map]

/-- Counterexample to C4 as stated: a repetition whose second completed
query failed produces no repetition outcome at all — the collected first
sample is lost and no failure count is recorded, where the claim requires a
summary recording the failure and a continuing run. -/
theorem search_failure_counterexample :
    collect_results [Except.ok ⟨1, 1, 1⟩, Except.error "boom"] =
      Except.error "boom" ∧
    ∀ ss, collect_results [Except.ok ⟨1, 1, 1⟩, Except.error "boom"] ≠
      Except.ok ss := by
  constructor
  · rfl
  · intro ss
    simp [collect_results, Except.map]

/-- Witness for C4 (amended) at a concrete outcome list. -/
theorem search_failure_aborts_run_witness :
    (∃ e2, collect_results [Except.ok ⟨1, 1, 1⟩, Except.error "down"] =
      Except.error e2) ∧
    ∀ ss, collect_results [Except.ok ⟨1, 1, 1⟩, Except.error "down"] ≠
      Except.ok ss :=
  search_failure_aborts_run [Except.ok ⟨1, 1, 1⟩, Except.error "down"] "down"
    (by simp)

/-! ## C6: the timed region of `_one_query` -/

/-- C6 (amended): the recorded search latency is the difference of two
`time.time()` readings taken immediately around the `db.search` call, so it
equals the search duration plus whatever wall-clock adjustment occurred
during the search — and it is entirely independent of the embedding step's
duration and clock behaviour (embedding is produced before the timed
region).  `time.time()` is the system wall clock, not a monotonic source,
so the adjustment term is unconstrained. -/
theorem one_query_timed_region (c : Clock) (dEmbed adjEmbed dSearch adjSearch : ℚ) :
    one_query_latency c dEmbed adjEmbed dSearch adjSearch = dSearch + adjSearch ∧
    (∀ dE2 aE2 : ℚ, one_query_latency c dE2 aE2 dSearch adjSearch =
      one_query_latency c dEmbed adjEmbed dSearch adjSearch) ∧
    (adjSearch = 0 → one_query_latency c dEmbed adjEmbed dSearch adjSearch = dSearch) := by
  refine ⟨?_, ?_, ?_⟩
  · unfold one_query_latency tick
    ring
  · intro dE2 aE2
    unfold one_query_latency tick
    ring
  · intro hadj
    unfold one_query_latency tick
    rw [hadj]
    ring

/-- Counterexample to C6 as stated: with the wall clock stepped back by
`2` seconds during a `1`-second search, the recorded latency is `-1` —
negative, which no monotonic clock source can produce.  The code reads
`time.time()`, not a monotonic clock. -/
theorem one_query_nonmonotonic_counterexample :
    one_query_latency ⟨0⟩ 1 0 1 (-2) = -1 ∧
    one_query_latency ⟨0⟩ 1 0 1 (-2) < 0 := by
  constructor <;>
  · unfold one_query_latency tick
    norm_num

/-- Witness for C6 (amended) at concrete durations and adjustments. -/
theorem one_query_timed_region_witness :
    one_query_latency ⟨7⟩ 3 0 2 0 = 2 + 0 ∧
    (∀ dE2 aE2 : ℚ, one_query_latency ⟨7⟩ dE2 aE2 2 0 =
      one_query_latency ⟨7⟩ 3 0 2 0) ∧
    ((0 : ℚ) = 0 → one_query_latency ⟨7⟩ 3 0 2 0 = 2) :=
  one_query_timed_region ⟨7⟩ 3 0 2 0

/-! ## C9: recorded vs actual ingestion batch size -/

/-- C9: the results snapshot records `batch_size: 2000` for every run,
while the ingestion actually issued uses `batch_size=200` for the pinecone
backend and passes no batch size at all for any other backend — so the
recorded batch size never equals a batch size actually used. -/
theorem recorded_batch_size_mismatch :
    config_batch_size = 2000 ∧
    upsert_batch_size "pinecone" = some 200 ∧
    (∀ name : String, strLower name ≠ "pinecone" → upsert_batch_size name = none) ∧
    (∀ name : String, upsert_batch_size name ≠ some config_batch_size) := by
  refine ⟨rfl, by decide, ?_, ?_⟩
  · intro name h
    unfold upsert_batch_size
    rw [if_neg h]
  · intro name
    unfold upsert_batch_size config_batch_size
    split <;> simp

/-- Witness for C9 at concrete backend names. -/
theorem recorded_batch_size_mismatch_witness :
    upsert_batch_size "milvus" = none ∧
    upsert_batch_size "pinecone" ≠ some config_batch_size :=
  ⟨recorded_batch_size_mismatch.2.2.1 "milvus" (by decide),
    recorded_batch_size_mismatch.2.2.2 "pinecone"⟩


/-! ## C8, C10: the main loop trace -/

theorem ev_db_bench {e : Ev} {m : String} {topks : List ℕ}
    (h : e ∈ bench_backend m topks) : ev_db e = m := by
  unfold bench_backend at h
  rw [List.mem_append, List.mem_append] at h
  rcases h with (h | h) | h
  · rcases List.mem_cons.mp h with rfl | h2
    · rfl
    · rcases List.mem_cons.mp h2 with rfl | h3
      · rfl
      · cases h3
  · obtain ⟨k, _, rfl⟩ := List.mem_map.mp h
    rfl
  · revert h
    split
    · intro h; cases h
    · intro h
      rw [List.mem_singleton.mp h]
      rfl

theorem ev_db_run {e : Ev} {dbs : List String} {topks : List ℕ}
    (h : e ∈ (run_backends dbs topks).1) : ev_db e ∈ dbs := by
  induction dbs with
  | nil => cases h
  | cons d rest ih =>
    unfold run_backends at h
    by_cases hd : (get_db d).isSome
    · rw [if_pos hd] at h
      rcases List.mem_append.mp h with h2 | h2
      · rw [ev_db_bench h2]
        exact List.mem_cons_self d rest
      · exact List.mem_cons_of_mem d (ih h2)
    · rw [if_neg hd] at h
      cases h

theorem count_teardown_of_not_mem {name : String} {tr : List Ev}
    (h : ∀ e ∈ tr, ev_db e ≠ name) : tr.count (Ev.teardown name) = 0 := by
  rw [List.count_eq_zero]
  intro hmem
  exact h _ hmem rfl

theorem foldl_apply_ev_of_not_mem {name : String} {tr : List Ev} (st : DBState)
    (h : ∀ e ∈ tr, ev_db e ≠ name) : tr.foldl (apply_ev name) st = st := by
  induction tr generalizing st with
  | nil => rfl
  | cons e t ih =>
    rw [List.foldl_cons]
    rw [show apply_ev name st e = st from by
      unfold apply_ev; rw [if_neg (h e (List.mem_cons_self e t))]]
    exact ih st fun e2 he2 => h e2 (List.mem_cons_of_mem _ he2)

theorem count_teardown_bench (m name : String) (topks : List ℕ) :
    (bench_backend m topks).count (Ev.teardown name) =
      if strLower m = "pinecone" then 0 else if m = name then 1 else 0 := by
  unfold bench_backend
  rw [List.count_append, List.count_append]
  have h1 : List.count (Ev.teardown name) [Ev.setup m, Ev.upsert m] = 0 := by
    rw [List.count_eq_zero]
    intro hmem
    rcases List.mem_cons.mp hmem with h2 | h2
    · cases h2
    · rcases List.mem_cons.mp h2 with h3 | h3
      · cases h3
      · cases h3
  have h2 : List.count (Ev.teardown name) (topks.map (Ev.sweep m)) = 0 := by
    rw [List.count_eq_zero]
    intro hmem
    obtain ⟨k, _, hk⟩ := List.mem_map.mp hmem
    cases hk
  have h3 : List.count (Ev.teardown name)
      (if strLower m = "pinecone" then [] else [Ev.teardown m]) =
      if strLower m = "pinecone" then 0 else if m = name then 1 else 0 := by
    split
    · rfl
    · rw [List.count_singleton]
      by_cases hmn : m = name
      · subst hmn
        simp
      · rw [if_neg hmn, if_neg]
        simp [hmn]
  rw [h1, h2, h3]
  omega

theorem foldl_apply_ev_bench (name : String) (topks : List ℕ) (st : DBState) :
    (bench_backend name topks).foldl (apply_ev name) st =
      if strLower name = "pinecone" then DBState.ingested else DBState.destroyed := by
  unfold bench_backend
  rw [List.foldl_append, List.foldl_append]
  have h1 : List.foldl (apply_ev name) st [Ev.setup name, Ev.upsert name] =
      DBState.ingested := by
    simp [apply_ev, ev_db]
  have h2 : ∀ st2 : DBState,
      (topks.map (Ev.sweep name)).foldl (apply_ev name) st2 = st2 := by
    intro st2
    induction topks generalizing st2 with
    | nil => rfl
    | cons k t ihk =>
      rw [List.map_cons, List.foldl_cons]
      rw [show apply_ev name st2 (Ev.sweep name k) = st2 from by
        unfold apply_ev; split <;> rfl]
      exact ihk st2
  rw [h1, h2]
  split
  · rfl
  · simp [apply_ev, ev_db]

/-- C8 (amended): an unsupported backend name is only discovered when the
loop reaches it — `get_db` silently returns `None` and the crash happens at
the `db.setup` attribute access for that backend.  The run does end with an
error, but every backend listed before the unsupported name has already
been fully set up, ingested and benchmarked (and, unless it is pinecone,
torn down); no validation happens at startup. -/
theorem unsupported_backend_midrun (dbs : List String) (topks : List ℕ)
    (h : ∃ name ∈ dbs, get_db name = none) :
    (run_backends dbs topks).2 = true ∧
    (run_backends dbs topks).1 =
      ((dbs.takeWhile fun n2 => (get_db n2).isSome).map
        fun n2 => bench_backend n2 topks).flatten := by
  induction dbs with
  | nil =>
    obtain ⟨name, hm, _⟩ := h
    cases hm
  | cons d rest ih =>
    by_cases hd : (get_db d).isSome
    · have h2 : ∃ name ∈ rest, get_db name = none := by
        obtain ⟨name, hm, hn⟩ := h
        rcases List.mem_cons.mp hm with rfl | hm2
        · rw [hn] at hd
          cases hd
        · exact ⟨name, hm2, hn⟩
      obtain ⟨ih1, ih2⟩ := ih h2
      unfold run_backends
      rw [if_pos hd]
      refine ⟨ih1, ?_⟩
      rw [List.takeWhile_cons, if_pos hd, List.map_cons, List.flatten_cons, ih2]
    · unfold run_backends
      rw [if_neg hd]
      refine ⟨rfl, ?_⟩
      rw [List.takeWhile_cons, if_neg hd]
      rfl

/-- Counterexample to C8 as stated: with `dbs = ["qdrant", "nosuchdb"]`,
the run does crash, but only after the qdrant backend has been fully set
up, ingested, benchmarked and torn down — setup of an earlier backend runs
before the unsupported name is ever looked at. -/
theorem unsupported_backend_counterexample :
    (run_backends ["qdrant", "nosuchdb"] [10]).2 = true ∧
    Ev.setup "qdrant" ∈ (run_backends ["qdrant", "nosuchdb"] [10]).1 ∧
    Ev.upsert "qdrant" ∈ (run_backends ["qdrant", "nosuchdb"] [10]).1 := by
  refine ⟨?_, ?_, ?_⟩ <;> decide

/-- Witness for C8 (amended) at `dbs = ["qdrant", "nosuchdb"]`. -/
theorem unsupported_backend_midrun_witness :
    (run_backends ["qdrant", "nosuchdb"] [10]).2 = true ∧
    (run_backends ["qdrant", "nosuchdb"] [10]).1 =
      (((["qdrant", "nosuchdb"] : List String).takeWhile
          fun n2 => (get_db n2).isSome).map
        fun n2 => bench_backend n2 [10]).flatten :=
  unsupported_backend_midrun ["qdrant", "nosuchdb"] [10]
    ⟨"nosuchdb", by decide, by decide⟩

/-- C10: after the k sweep, teardown is called exactly once for a backend
whose lowercased name is not `"pinecone"` and never for the pinecone
backend; consequently pinecone's index is still in its ingested state when
the run ends, while every other backend's index has been destroyed. -/
theorem teardown_policy (dbs : List String) (topks : List ℕ) (name : String)
    (hall : ∀ n2 ∈ dbs, (get_db n2).isSome = true) (hcount : dbs.count name = 1) :
    ((run_backends dbs topks).1.count (Ev.teardown name) =
      if strLower name = "pinecone" then 0 else 1) ∧
    final_state name (run_backends dbs topks).1 =
      (if strLower name = "pinecone" then DBState.ingested
       else DBState.destroyed) := by
  induction dbs with
  | nil => simp at hcount
  | cons d rest ih =>
    have hd : (get_db d).isSome = true := hall d (List.mem_cons_self d rest)
    unfold run_backends
    rw [if_pos hd]
    by_cases hdn : d = name
    · subst hdn
      have hzero : rest.count d = 0 := by
        rw [List.count_cons] at hcount
        simp at hcount
        omega
      have hnotin : d ∉ rest := List.count_eq_zero.mp hzero
      have hrest_ne : ∀ e ∈ (run_backends rest topks).1, ev_db e ≠ d := by
        intro e he hcontra
        exact hnotin (hcontra ▸ ev_db_run he)
      constructor
      · rw [List.count_append, count_teardown_bench,
          count_teardown_of_not_mem hrest_ne]
        split <;> simp
      · unfold final_state
        rw [List.foldl_append, foldl_apply_ev_bench]
        exact foldl_apply_ev_of_not_mem _ hrest_ne
    · have hcount2 : rest.count name = 1 := by
        rw [List.count_cons] at hcount
        simpa [hdn] using hcount
      have hall2 : ∀ n2 ∈ rest, (get_db n2).isSome = true :=
        fun n2 h2 => hall n2 (List.mem_cons_of_mem _ h2)
      obtain ⟨ih1, ih2⟩ := ih hall2 hcount2
      have hbench_ne : ∀ e ∈ bench_backend d topks, ev_db e ≠ name := by
        intro e he
        rw [ev_db_bench he]
        exact hdn
      constructor
      · rw [List.count_append, count_teardown_of_not_mem hbench_ne, ih1]
        omega
      · unfold final_state at ih2 ⊢
        rw [List.foldl_append, foldl_apply_ev_of_not_mem _ hbench_ne]
        exact ih2

/-- Witness for C10 at `dbs = ["qdrant", "pinecone"]`, `name = "pinecone"`. -/
theorem teardown_policy_witness :
    ((run_backends ["qdrant", "pinecone"] [10]).1.count
        (Ev.teardown "pinecone") =
      if strLower "pinecone" = "pinecone" then 0 else 1) ∧
    final_state "pinecone" (run_backends ["qdrant", "pinecone"] [10]).1 =
      (if strLower "pinecone" = "pinecone" then DBState.ingested
       else DBState.destroyed) :=
  teardown_policy ["qdrant", "pinecone"] [10] "pinecone"
    (by intro n2 h2; rcases List.mem_cons.mp h2 with rfl | h3
        · decide
        · rw [List.mem_singleton.mp h3]; decide)
    (by decide)

end Benchmark
